import Mathlib

/-!
# Verification of the Emulator Session Manager and VNC Relay

Shallow embedding of the server component of `browser-ig` (file
`src/unnamed/part_000`, the Set-based variant of `server.js`).

Strings are modelled as `List Char` (JavaScript strings are immutable
character sequences; `+=` is `++`, `substring(n)` is `drop n`, `.length`
is `length`).  The JavaScript `Map` of emulators is modelled as an
association list with JS-`Map` semantics (`set` replaces the binding in
place, `get` looks up the first binding, `delete` removes the binding).
JS numbers that hold cursor positions are modelled as `Int` (they are
clamped with `Math.max(0, ·)` in the source, which is `max 0 ·` here);
lengths are `Nat`.
-/

namespace BrowserIG

/-- Propositional equality of `Except` values is decidable when it is on
both components; used to evaluate the embedded operations on concrete
inputs. -/
instance {ε α : Type} [DecidableEq ε] [DecidableEq α] :
    DecidableEq (Except ε α)
  | .error e, .error f =>
    decidable_of_iff (e = f) ⟨fun h => h ▸ rfl, fun h => by cases h; rfl⟩
  | .error _, .ok _ => isFalse fun h => by cases h
  | .ok _, .error _ => isFalse fun h => by cases h
  | .ok x, .ok y =>
    decidable_of_iff (x = y) ⟨fun h => h ▸ rfl, fun h => by cases h; rfl⟩

/-- `MAX_BUFFER_SIZE` (part_000 line 62): maximum output buffer size in
characters. -/
def MAX_BUFFER_SIZE : Nat := 50000

/-! ## Resource Allocator (part_000 lines 98-118)

`usedVncDisplays` (line 68) is a JS `Set` of integers, modelled as a
`Finset Nat`.  `getAvailableVncDisplay` is a `for` loop over
`display = 0 .. 99`; the loop is embedded as `findFreeLoop used start fuel`
where `fuel` is the number of remaining iterations. -/

/-- The `for (let display = 0; display < 100; display++)` loop body of
`getAvailableVncDisplay` (lines 103-108): returns the first `d ≥ start`
with `d ∉ used`, inspecting `fuel` candidates. -/
def findFreeLoop (used : Finset Nat) : Nat → Nat → Option Nat
  | _, 0 => none
  | start, fuel + 1 =>
    if start ∈ used then findFreeLoop used (start + 1) fuel else some start

/-- `getAvailableVncDisplay` (lines 101-111): find the first available
display in 0-99, add it to the used set and return it; throw
`'No available VNC displays'` if all are in use.  The thrown exception is
modelled as the `Except.error` carrying the message. -/
def getAvailableVncDisplay (used : Finset Nat) :
    Except String (Nat × Finset Nat) :=
  match findFreeLoop used 0 100 with
  | some display => .ok (display, insert display used)
  | none => .error "No available VNC displays"

/-- `releaseVncDisplay` (lines 116-118): remove a display from the used
set (`Set.delete`). -/
def releaseVncDisplay (display : Nat) (used : Finset Nat) : Finset Nat :=
  used.erase display

/-- Iterated acquisition: perform `n` consecutive `getAvailableVncDisplay`
calls, collecting the returned displays (this is the "N concurrent
acquire calls" scenario of the spec; the JS event loop serialises the
calls). -/
def acquireN : Nat → Finset Nat → Except String (List Nat × Finset Nat)
  | 0, used => .ok ([], used)
  | n + 1, used =>
    match getAvailableVncDisplay used with
    | .error e => .error e
    | .ok (d, used') =>
      match acquireN n used' with
      | .error e => .error e
      | .ok (ds, used'') => .ok (d :: ds, used'')

/-! ## Session data model (part_000 lines 366-379)

`emulatorData` is the object stored in the `emulators` map. -/

/-- Requested configuration `{ browser, ram, vram }` (line 611). -/
structure Config where
  browser : String
  ram : String
  vram : String
  deriving DecidableEq, Repr

/-- One entry of `browserConfigs` (lines 71-88). -/
structure BrowserConfig where
  name : String
  image : String
  imageUrl : Option String
  description : String
  deriving DecidableEq, Repr

/-- `browserConfigs` (lines 71-88), as an association list. -/
def browserConfigs : List (String × BrowserConfig) :=
  [("midori",
    { name := "Midori", image := "alpine-midori.img",
      imageUrl := some
        "https://github.com/sriail/file-serving/releases/download/browser-packages/alpine-midori.img.gz",
      description := "Lightweight web browser" }),
   ("waterfox",
    { name := "Waterfox", image := "waterfox-browser.img",
      imageUrl := none,
      description := "Privacy-focused Firefox fork" }),
   ("brave",
    { name := "Brave", image := "brave-browser.img",
      imageUrl := none,
      description := "Privacy-focused browser with ad blocking" })]

/-- `emulatorData` (lines 366-379).  `process` is an abstract handle:
`none` until the process is actually spawned.  `outputBuffer` is a
character list; `lastReadPosition` is a JS number, modelled as `Int`
(the source clamps it with `Math.max(0, ·)`).  `startTime` is a
millisecond timestamp. -/
structure Session where
  id : String
  process : Option Unit
  config : Config
  browserConfig : BrowserConfig
  outputBuffer : List Char
  lastReadPosition : Int
  running : Bool
  startTime : Nat
  vncDisplay : Nat
  vncPort : Nat
  websocketPort : Nat
  imagePath : Option String
  deriving DecidableEq, Repr

/-- The `emulators` JS `Map` (line 59), keyed by emulator id. -/
abbrev Registry := List (String × Session)

/-- `Map.prototype.set`: replace the binding for `k` in place, or append
a new binding at the end. -/
def mapSet : Registry → String → Session → Registry
  | [], k, v => [(k, v)]
  | (k', v') :: rest, k, v =>
    if k' = k then (k, v) :: rest else (k', v') :: mapSet rest k v

/-- `Map.prototype.delete`: remove the binding for `k` (JS `Map` keys are
unique, so removing every matching pair is observationally the same). -/
def mapDelete (m : Registry) (k : String) : Registry :=
  m.filter (fun p => p.1 ≠ k)

/-! ## Output buffer and process event handlers (part_000 lines 505-563)

The stdout and stderr `data` handlers append to `outputBuffer` and then
run the same inline trim code (lines 516-521 and 531-535); the trim is
factored into `trimBuffer` here.  The `close` and `error` handlers append
a terminal status line (without trimming), flip `running` and release the
display. -/

/-- The inline trim (lines 516-521 / 531-535): if the buffer exceeds
`MAX_BUFFER_SIZE`, drop exactly the excess from the front
(`substring(excessLength)`) and shift the read cursor left by the same
amount, clamped at zero (`Math.max(0, lastReadPosition - excessLength)`). -/
def trimBuffer (buf : List Char) (pos : Int) : List Char × Int :=
  if MAX_BUFFER_SIZE < buf.length then
    let excessLength := buf.length - MAX_BUFFER_SIZE
    (buf.drop excessLength, max 0 (pos - (excessLength : Int)))
  else
    (buf, pos)

/-- The `process.stdout.on('data')` handler (lines 511-524):
`outputBuffer += output` followed by the trim. -/
def onStdoutData (emu : Session) (data : List Char) : Session :=
  let buf := emu.outputBuffer ++ data
  let t := trimBuffer buf emu.lastReadPosition
  { emu with outputBuffer := t.1, lastReadPosition := t.2 }

/-- The `process.stderr.on('data')` handler (lines 526-538):
`outputBuffer += "ERROR: " + output` followed by the trim. -/
def onStderrData (emu : Session) (data : List Char) : Session :=
  let buf := emu.outputBuffer ++ ("ERROR: ".data ++ data)
  let t := trimBuffer buf emu.lastReadPosition
  { emu with outputBuffer := t.1, lastReadPosition := t.2 }

/-- The terminal status line appended by the `close` handler (line 544):
`"\n\nEmulator stopped (exit code: " + code + ")\n"`. -/
def exitStatusLine (code : Int) : List Char :=
  "\n\nEmulator stopped (exit code: ".data ++ (toString code).data ++ ")\n".data

/-- The terminal status line appended by the `error` handler (line 556):
`"\n\nError: " + message + "\n"`. -/
def errorStatusLine (message : List Char) : List Char :=
  "\n\nError: ".data ++ message ++ "\n".data

/-- The `process.on('close')` handler (lines 540-550): flip `running`,
append the exit status line (note: without trimming), release the
session's display.  The source guards the release with
`vncDisplay !== undefined`; `vncDisplay` is always assigned at creation,
so the guard is always true. -/
def handleClose (code : Int) (emu : Session) (used : Finset Nat) :
    Session × Finset Nat :=
  ({ emu with
      running := false,
      outputBuffer := emu.outputBuffer ++ exitStatusLine code },
   releaseVncDisplay emu.vncDisplay used)

/-- The `process.on('error')` handler (lines 552-562): same shape as the
`close` handler with the error status line. -/
def handleProcessError (message : List Char) (emu : Session)
    (used : Finset Nat) : Session × Finset Nat :=
  ({ emu with
      running := false,
      outputBuffer := emu.outputBuffer ++ errorStatusLine message },
   releaseVncDisplay emu.vncDisplay used)

/-! ## API routes (part_000 lines 631-686) -/

/-- Body of the `GET /api/emulator-status/:id` 200 response
(lines 643-650). -/
structure StatusResponse where
  running : Bool
  output : List Char
  config : Config
  uptime : Nat
  vncPort : Nat
  websocketPort : Nat
  deriving DecidableEq, Repr

/-- The destructive read performed by the status route (lines 640-641):
`newOutput = outputBuffer.substring(lastReadPosition)` followed by
`lastReadPosition = outputBuffer.length`.  JS `substring` clamps a
negative start index to 0, which `Int.toNat` provides. -/
def readNew (emu : Session) : Session × List Char :=
  let newOutput := emu.outputBuffer.drop emu.lastReadPosition.toNat
  ({ emu with lastReadPosition := (emu.outputBuffer.length : Int) }, newOutput)

/-- `GET /api/emulator-status/:id` (lines 631-651): 404 when the id is
unknown; otherwise the destructive read `readNew`.
`now` is the current millisecond timestamp (`new Date()`). -/
def emulatorStatusRoute (now : Nat) (reg : Registry) (id : String) :
    Registry × Except String StatusResponse :=
  match List.lookup id reg with
  | none => (reg, .error "Emulator not found")
  | some emulator =>
    let newOutput := (readNew emulator).2
    let emulator' := (readNew emulator).1
    (mapSet reg id emulator',
     .ok { running := emulator.running,
           output := newOutput,
           config := emulator.config,
           uptime := (now - emulator.startTime) / 1000,
           vncPort := emulator.vncPort,
           websocketPort := emulator.websocketPort })

/-- Body of the `POST /api/stop-emulator/:id` 200 response (line 680). -/
structure StopResponse where
  success : Bool
  message : String
  deriving DecidableEq, Repr

/-- `POST /api/stop-emulator/:id` (lines 656-686): 404 when the id is
unknown; otherwise kill the process if it exists and is running
(the `SIGTERM` signal itself is an asynchronous effect on the OS
process and is not modelled), flip `running`, release the display and
schedule `emulators.delete(id)` after 5000 ms.  The scheduled removal is
returned as `some (id, delayMs)`. -/
def stopEmulatorRoute (reg : Registry) (used : Finset Nat) (id : String) :
    Registry × Finset Nat × Except String StopResponse ×
      Option (String × Nat) :=
  match List.lookup id reg with
  | none => (reg, used, .error "Emulator not found", none)
  | some emulator =>
    let emulator' :=
      if emulator.process.isSome && emulator.running then
        { emulator with running := false }
      else
        emulator
    let used' := releaseVncDisplay emulator.vncDisplay used
    (mapSet reg id emulator', used',
     .ok { success := true, message := "Emulator stopped" },
     some (id, 5000))

/-- Firing the timer scheduled by the stop route:
`emulators.delete(emulatorId)` (line 677). -/
def applyScheduledRemoval (reg : Registry) (id : String) : Registry :=
  mapDelete reg id

/-! ## WebSocket upgrade handler (part_000 lines 712-740)

The outcome of an upgrade request for `/vnc/:emulatorId`: either a raw
HTTP rejection written to the socket, or acceptance, after which the
connection handler (lines 745-779) dials `net.connect(vncPort,
'127.0.0.1')`.  The accepted outcome records that port. -/
inductive UpgradeOutcome where
  | rejectNotFound
  | rejectUnavailable
  | accept (vncPort : Nat)
  deriving DecidableEq, Repr

/-- `server.on('upgrade')` for a `/vnc/:emulatorId` path
(lines 717-735): unknown id → `404 Not Found`; known but not running →
`503 Service Unavailable`; otherwise accept and relay to the session's
`vncPort`. -/
def handleVncUpgrade (reg : Registry) (emulatorId : String) :
    UpgradeOutcome :=
  match List.lookup emulatorId reg with
  | none => .rejectNotFound
  | some emulator =>
    if emulator.running then .accept emulator.vncPort
    else .rejectUnavailable

/-- Whether an upgrade outcome opens a local TCP connection: only the
accepted outcome reaches `net.connect` (line 750). -/
def opensLocalConnection : UpgradeOutcome → Bool
  | .accept _ => true
  | .rejectNotFound => false
  | .rejectUnavailable => false

/-! ## Session creation (part_000 lines 315-426) -/

/-- `path.basename`: the final component of a path. -/
def basename (p : String) : String :=
  String.mk ((p.data.reverse.takeWhile (fun c => c ≠ '/')).reverse)

/-- `generateStartupMessage` (lines 568-586). -/
def generateStartupMessage (config : Config) (browserConfig : BrowserConfig)
    (imagePath : Option String) (vncPort websocketPort : Nat) : List Char :=
  let ram := if config.ram = "unlimited" then "Unlimited (16GB)"
             else config.ram ++ " GB"
  let vram := if config.vram = "1024" then "1 GB" else config.vram ++ " MB"
  let imageInfo := match imagePath with
    | some p => "\nDisk Image: " ++ basename p
    | none => "\nDisk Image: None (simulation mode)"
  let vncInfo := "\nVNC Port: " ++ toString vncPort ++
    "\nWebSocket Port: " ++ toString websocketPort
  ("\n===========================================\n  Browser IG - QEMU Emulator\n===========================================\nBrowser: "
    ++ browserConfig.name
    ++ "\nDescription: " ++ browserConfig.description
    ++ "\nRAM: " ++ ram
    ++ "\nVRAM: " ++ vram
    ++ imageInfo ++ vncInfo
    ++ "\n===========================================\n\nInitializing emulator...\n").data

/-- The error text appended by the `catch` block of `startQemuEmulator`
(line 415): `"\nError: " + error.message + "\n"` (a single leading
newline, unlike the process `error` handler's line). -/
def catchErrorLine (message : List Char) : List Char :=
  "\nError: ".data ++ message ++ "\n".data

/-- The environment of one `startQemuEmulator` call: the image path
produced by `ensureImageAvailable` (`none` forces simulation mode), and
whether the `try` block spawning the process threw (`.error msg` models
the caught exception).  The real-engine and simulated-process branches
both end in `setupProcessHandlers` + `emulatorData.process = ...`, so
they coincide in this model where the process handle is abstract. -/
structure SpawnEnv where
  imagePath : Option String
  spawnResult : Except String Unit
  deriving Repr

/-- Body of the value returned by `startQemuEmulator` (lines 419-425). -/
structure CreateResult where
  emulatorId : String
  output : List Char
  vncPort : Nat
  websocketPort : Nat
  hasImage : Bool
  deriving DecidableEq, Repr

/-- `startQemuEmulator` (lines 315-426): acquire a display (a throw
propagates to the route, registry untouched), derive the ports, insert
the session with `running = true` and `process = null`, then try to
spawn; on success record the process handle, on a caught throw append
the error text and flip `running` to false.  The delayed
`setTimeout(..., 500)` append of the VNC info lines (lines 399-405) is a
timer-driven write and is not part of the synchronous creation path
modelled here. -/
def startQemuEmulator (env : SpawnEnv) (emulatorId : String) (now : Nat)
    (config : Config) (browserConfig : BrowserConfig)
    (reg : Registry) (used : Finset Nat) :
    Registry × Finset Nat × Except String CreateResult :=
  match getAvailableVncDisplay used with
  | .error e => (reg, used, .error e)
  | .ok (vncDisplay, used') =>
    let vncPort := 5900 + vncDisplay
    let websocketPort := 6080 + vncDisplay
    let imagePath := env.imagePath
    let outputBuffer :=
      generateStartupMessage config browserConfig imagePath vncPort websocketPort
    let emulatorData : Session :=
      { id := emulatorId, process := none, config := config,
        browserConfig := browserConfig, outputBuffer := outputBuffer,
        lastReadPosition := 0, running := true, startTime := now,
        vncDisplay := vncDisplay, vncPort := vncPort,
        websocketPort := websocketPort, imagePath := imagePath }
    let reg₁ := mapSet reg emulatorId emulatorData
    match env.spawnResult with
    | .ok _ =>
      (mapSet reg₁ emulatorId { emulatorData with process := some () },
       used',
       .ok { emulatorId := emulatorId, output := outputBuffer,
             vncPort := vncPort, websocketPort := websocketPort,
             hasImage := imagePath.isSome })
    | .error message =>
      (mapSet reg₁ emulatorId
        { emulatorData with
            outputBuffer := emulatorData.outputBuffer ++ catchErrorLine message.data,
            running := false },
       used',
       .ok { emulatorId := emulatorId, output := outputBuffer,
             vncPort := vncPort, websocketPort := websocketPort,
             hasImage := imagePath.isSome })

/-! ## Per-session operations and the cursor invariant -/

/-- The operations that touch one session's output buffer and cursor:
the two stream `data` handlers, the two terminal handlers, and the
destructive read of the status route. -/
inductive SessionOp where
  | stdoutData (data : List Char)
  | stderrData (data : List Char)
  | closeEvt (code : Int)
  | errorEvt (message : List Char)
  | statusRead
  deriving Repr

/-- Apply one session operation, returning the updated session (and the
updated used-display set, which only the terminal handlers touch). -/
def applySessionOp (op : SessionOp) (emu : Session) (used : Finset Nat) :
    Session × Finset Nat :=
  match op with
  | .stdoutData d => (onStdoutData emu d, used)
  | .stderrData d => (onStderrData emu d, used)
  | .closeEvt c => handleClose c emu used
  | .errorEvt m => handleProcessError m emu used
  | .statusRead => ((readNew emu).1, used)

/-- The cursor invariant: the read cursor is at least 0 and never
exceeds the buffer length. -/
def cursorInv (emu : Session) : Prop :=
  0 ≤ emu.lastReadPosition ∧
    emu.lastReadPosition ≤ (emu.outputBuffer.length : Int)

instance (emu : Session) : Decidable (cursorInv emu) := by
  unfold cursorInv; infer_instance

/-! ## Concrete sessions used to instantiate the theorems -/

/-- A concrete running session. -/
def sampleSession : Session :=
  { id := "a", process := some (),
    config := { browser := "midori", ram := "1", vram := "128" },
    browserConfig :=
      { name := "Midori", image := "alpine-midori.img", imageUrl := none,
        description := "Lightweight web browser" },
    outputBuffer := "hello".data, lastReadPosition := 2, running := true,
    startTime := 0, vncDisplay := 0, vncPort := 5900,
    websocketPort := 6080, imagePath := none }

/-- `sampleSession` already stopped. -/
def sampleStoppedSession : Session :=
  { sampleSession with running := false }

/-- A session whose output buffer is exactly at the cap and fully read. -/
def sessionAtCap : Session :=
  { sampleSession with
      outputBuffer := List.replicate MAX_BUFFER_SIZE 'a',
      lastReadPosition := (MAX_BUFFER_SIZE : Int) }

/-- A session with an empty, fully read buffer. -/
def sessionEmptyRead : Session :=
  { sampleSession with outputBuffer := [], lastReadPosition := 0 }

/-- A creation environment in which spawning the process throws. -/
def envSpawnFail : SpawnEnv :=
  { imagePath := none, spawnResult := .error "spawn ENOENT" }

/-- A creation environment in which spawning succeeds (simulation mode,
no image). -/
def envSpawnOk : SpawnEnv :=
  { imagePath := none, spawnResult := .ok () }

/-! ## Helper lemmas -/

lemma findFreeLoop_some {used : Finset Nat} :
    ∀ fuel start d, findFreeLoop used start fuel = some d →
      d ∉ used ∧ start ≤ d ∧ d < start + fuel ∧
        ∀ k, start ≤ k → k < d → k ∈ used := by
  intro fuel
  induction fuel with
  | zero => intro start d h; simp [findFreeLoop] at h
  | succ n ih =>
    intro start d h
    rw [findFreeLoop] at h
    by_cases hs : start ∈ used
    · simp only [hs, if_true] at h
      obtain ⟨hd, hle, hlt, hall⟩ := ih (start + 1) d h
      refine ⟨hd, by omega, by omega, ?_⟩
      intro k hk1 hk2
      rcases Nat.eq_or_lt_of_le hk1 with rfl | hk1'
      · exact hs
      · exact hall k hk1' hk2
    · simp only [hs, if_false, Option.some.injEq] at h
      subst h
      exact ⟨hs, le_refl _, by omega, fun k hk1 hk2 => absurd hk1 (by omega)⟩

lemma findFreeLoop_all_used {used : Finset Nat} :
    ∀ fuel start, (∀ k, start ≤ k → k < start + fuel → k ∈ used) →
      findFreeLoop used start fuel = none := by
  intro fuel
  induction fuel with
  | zero => intro start _; simp [findFreeLoop]
  | succ n ih =>
    intro start hall
    have hs : start ∈ used := hall start (le_refl _) (by omega)
    rw [findFreeLoop]
    simp only [hs, if_true]
    exact ih (start + 1) (fun k hk1 hk2 => hall k (by omega) (by omega))

lemma findFreeLoop_finds {used : Finset Nat} :
    ∀ fuel start d, d ∉ used → start ≤ d → d < start + fuel →
      (∀ k, start ≤ k → k < d → k ∈ used) →
      findFreeLoop used start fuel = some d := by
  intro fuel
  induction fuel with
  | zero => intro start d _ h1 h2 _; omega
  | succ n ih =>
    intro start d hd h1 h2 hall
    rw [findFreeLoop]
    by_cases hs : start ∈ used
    · simp only [hs, if_true]
      have hne : start ≠ d := by rintro rfl; exact hd hs
      exact ih (start + 1) d hd (by omega) (by omega)
        (fun k hk1 hk2 => hall k (by omega) hk2)
    · simp only [hs, if_false]
      have : ¬ start < d := fun hlt => hs (hall start (le_refl _) hlt)
      have : start = d := by omega
      simp [this]

lemma getAvailableVncDisplay_ok {used : Finset Nat} {d : Nat}
    {used' : Finset Nat} (h : getAvailableVncDisplay used = .ok (d, used')) :
    d ∉ used ∧ d < 100 ∧ (∀ k, k < d → k ∈ used) ∧ used' = insert d used := by
  unfold getAvailableVncDisplay at h
  cases hf : findFreeLoop used 0 100 with
  | none => rw [hf] at h; exact absurd h (by simp)
  | some d' =>
    rw [hf] at h
    simp only [Except.ok.injEq, Prod.mk.injEq] at h
    obtain ⟨rfl, rfl⟩ := h
    obtain ⟨h1, _, h3, h4⟩ := findFreeLoop_some 100 0 d' hf
    exact ⟨h1, by omega, fun k hk => h4 k (Nat.zero_le _) hk, rfl⟩

lemma getAvailableVncDisplay_exhausted {used : Finset Nat}
    (h : ∀ k, k < 100 → k ∈ used) :
    getAvailableVncDisplay used = .error "No available VNC displays" := by
  unfold getAvailableVncDisplay
  rw [findFreeLoop_all_used 100 0 (fun k _ hk => h k (by omega))]

lemma getAvailableVncDisplay_finds {used : Finset Nat} {d : Nat}
    (hd : d ∉ used) (hlt : d < 100) (hbelow : ∀ k, k < d → k ∈ used) :
    getAvailableVncDisplay used = .ok (d, insert d used) := by
  unfold getAvailableVncDisplay
  rw [findFreeLoop_finds 100 0 d hd (Nat.zero_le _) (by omega)
    (fun k _ hk => hbelow k hk)]

lemma acquireN_ok {used : Finset Nat} :
    ∀ n ds used', acquireN n used = .ok (ds, used') →
      ds.Nodup ∧ ∀ d ∈ ds, d ∉ used := by
  intro n
  induction n generalizing used with
  | zero =>
    intro ds used' h
    simp only [acquireN, Except.ok.injEq, Prod.mk.injEq] at h
    obtain ⟨rfl, rfl⟩ := h
    exact ⟨List.nodup_nil, by simp⟩
  | succ n ih =>
    intro ds used' h
    rw [acquireN] at h
    cases h1 : getAvailableVncDisplay used with
    | error e => rw [h1] at h; exact absurd h (by simp)
    | ok p =>
      obtain ⟨d, used₁⟩ := p
      rw [h1] at h
      dsimp only at h
      cases h2 : acquireN n used₁ with
      | error e => rw [h2] at h; exact absurd h (by simp)
      | ok q =>
        obtain ⟨ds₁, used₂⟩ := q
        rw [h2] at h
        simp only [Except.ok.injEq, Prod.mk.injEq] at h
        obtain ⟨rfl, rfl⟩ := h
        obtain ⟨hfresh, _, _, hins⟩ := getAvailableVncDisplay_ok h1
        obtain ⟨hnd, hnotin⟩ := ih ds₁ used₂ h2
        subst hins
        refine ⟨List.nodup_cons.mpr ⟨?_, hnd⟩, ?_⟩
        · intro hmem
          exact (hnotin d hmem) (Finset.mem_insert_self d used)
        · intro x hx
          rcases List.mem_cons.mp hx with rfl | hx'
          · exact hfresh
          · intro hxu
            exact (hnotin x hx') (Finset.mem_insert_of_mem hxu)

lemma lookup_mapSet_self (m : Registry) (k : String) (v : Session) :
    List.lookup k (mapSet m k v) = some v := by
  induction m with
  | nil => simp [mapSet, List.lookup]
  | cons p rest ih =>
    obtain ⟨k', v'⟩ := p
    by_cases h : k' = k
    · simp [mapSet, h, List.lookup]
    · simp only [mapSet, h, if_false]
      rw [List.lookup_cons]
      have : (k == k') = false := by
        simp [beq_iff_eq]; exact fun hk => h hk.symm
      simp [this, ih]

lemma lookup_mapSet_other (m : Registry) (k j : String) (v : Session)
    (h : j ≠ k) : List.lookup j (mapSet m k v) = List.lookup j m := by
  induction m with
  | nil =>
    have hb : (j == k) = false := by simp [beq_iff_eq, h]
    simp [mapSet, List.lookup_cons, hb]
  | cons p rest ih =>
    obtain ⟨k', v'⟩ := p
    by_cases hk : k' = k
    · subst hk
      simp only [mapSet, if_true, List.lookup_cons]
      have : (j == k') = false := by simp [beq_iff_eq, h]
      simp [this]
    · simp only [mapSet, hk, if_false]
      rw [List.lookup_cons, List.lookup_cons]
      cases hjk : (j == k') <;> simp [ih]

lemma lookup_mapDelete_self (m : Registry) (k : String) :
    List.lookup k (mapDelete m k) = none := by
  induction m with
  | nil => simp [mapDelete]
  | cons p rest ih =>
    obtain ⟨k', v'⟩ := p
    by_cases h : k' = k
    · simpa [mapDelete, h] using ih
    · simp only [mapDelete, List.filter_cons] at ih ⊢
      have : (decide (k' ≠ k)) = true := by simp [h]
      simp only [this, if_true, List.lookup_cons]
      have : (k == k') = false := by
        simp [beq_iff_eq]; exact fun hk => h hk.symm
      simp only [List.lookup_cons, this]
      exact ih

lemma trimBuffer_fst (buf : List Char) (pos : Int) :
    (trimBuffer buf pos).1 = buf.drop (buf.length - MAX_BUFFER_SIZE) := by
  unfold trimBuffer
  split
  · simp only []
  · next h =>
    have h0 : buf.length - MAX_BUFFER_SIZE = 0 := by omega
    simp [h0]

lemma trimBuffer_snd (buf : List Char) (pos : Int) (h : 0 ≤ pos) :
    (trimBuffer buf pos).2 =
      max 0 (pos - ((buf.length - MAX_BUFFER_SIZE : Nat) : Int)) := by
  unfold trimBuffer
  split
  · simp only []
  · next hle =>
    have h0 : buf.length - MAX_BUFFER_SIZE = 0 := by omega
    rw [h0]
    simp
    omega

lemma trimBuffer_length (buf : List Char) (pos : Int) :
    (trimBuffer buf pos).1.length = min buf.length MAX_BUFFER_SIZE := by
  rw [trimBuffer_fst, List.length_drop]
  omega

lemma trimBuffer_decomp (buf : List Char) (pos : Int) :
    buf.take (buf.length - MAX_BUFFER_SIZE) ++ (trimBuffer buf pos).1 = buf := by
  rw [trimBuffer_fst]
  exact List.take_append_drop _ _

lemma readNew_onStdout_output (emu : Session) (data : List Char) :
    (readNew (onStdoutData emu data)).2 =
      ((trimBuffer (emu.outputBuffer ++ data) emu.lastReadPosition).1).drop
        ((trimBuffer (emu.outputBuffer ++ data) emu.lastReadPosition).2).toNat :=
  rfl

lemma trimBuffer_inv (buf : List Char) (pos : Int) (h0 : 0 ≤ pos)
    (h1 : pos ≤ (buf.length : Int)) :
    0 ≤ (trimBuffer buf pos).2 ∧
      (trimBuffer buf pos).2 ≤ ((trimBuffer buf pos).1.length : Int) := by
  rw [trimBuffer_snd buf pos h0, trimBuffer_length]
  refine ⟨le_max_left _ _, ?_⟩
  omega

/-! ## Claims -/

/-- C1: for every sequence of acquire and release operations on the
display-slot allocator with pool size 100, `getAvailableVncDisplay`
returns the lowest-numbered slot not currently in the used set and marks
it used; all slots handed out by consecutive acquisitions are pairwise
distinct; and when all 100 slots are in use, the next acquire fails with
the `'No available VNC displays'` error instead of returning a slot. -/
theorem display_allocator_correct :
    (∀ (used : Finset Nat) (d : Nat) (used' : Finset Nat),
        getAvailableVncDisplay used = .ok (d, used') →
        d ∉ used ∧ d < 100 ∧ (∀ k, k < d → k ∈ used) ∧
          used' = insert d used) ∧
    (∀ used : Finset Nat, (∀ k, k < 100 → k ∈ used) →
        getAvailableVncDisplay used = .error "No available VNC displays") ∧
    (∀ (n : Nat) (used : Finset Nat) (ds : List Nat) (used' : Finset Nat),
        acquireN n used = .ok (ds, used') → ds.Nodup) :=
  ⟨fun _ _ _ h => getAvailableVncDisplay_ok h,
   fun _ h => getAvailableVncDisplay_exhausted h,
   fun n _ ds used' h => (acquireN_ok n ds used' h).1⟩

/-- Witness for C1 at concrete inputs: acquiring from the empty set
yields slot 0; acquiring from a full pool fails; three consecutive
acquisitions yield distinct slots. -/
theorem display_allocator_correct_witness :
    (0 ∉ (∅ : Finset Nat) ∧ 0 < 100 ∧ (∀ k, k < 0 → k ∈ (∅ : Finset Nat)) ∧
      ({0} : Finset Nat) = insert 0 ∅) ∧
    getAvailableVncDisplay (Finset.range 100) =
      .error "No available VNC displays" ∧
    List.Nodup [0, 1, 2] :=
  ⟨display_allocator_correct.1 ∅ 0 {0} (by decide),
   display_allocator_correct.2.1 (Finset.range 100)
     (fun k hk => Finset.mem_range.mpr hk),
   display_allocator_correct.2.2 3 ∅ [0, 1, 2] {0, 1, 2} (by decide)⟩

/-- C3: every operation on a session (stdout append, stderr append —
each including the trim —, the terminal close/error handlers, and the
destructive status read) preserves the cursor invariant: the read cursor
is at least 0 and never exceeds the current buffer length. -/
theorem cursor_invariant_preserved (op : SessionOp) (emu : Session)
    (used : Finset Nat) (h : cursorInv emu) :
    cursorInv (applySessionOp op emu used).1 := by
  obtain ⟨h0, h1⟩ := h
  cases op with
  | stdoutData d =>
    simp only [applySessionOp, onStdoutData, cursorInv]
    exact trimBuffer_inv _ _ h0 (by rw [List.length_append]; push_cast; omega)
  | stderrData d =>
    simp only [applySessionOp, onStderrData, cursorInv]
    exact trimBuffer_inv _ _ h0 (by rw [List.length_append]; push_cast; omega)
  | closeEvt c =>
    simp only [applySessionOp, handleClose, cursorInv, List.length_append]
    refine ⟨h0, ?_⟩
    push_cast
    omega
  | errorEvt m =>
    simp only [applySessionOp, handleProcessError, cursorInv, List.length_append]
    refine ⟨h0, ?_⟩
    push_cast
    omega
  | statusRead =>
    simp only [applySessionOp, readNew, cursorInv]
    exact ⟨Int.natCast_nonneg _, le_refl _⟩

/-- Witness for C3: the invariant is preserved at a concrete session and
operation. -/
theorem cursor_invariant_preserved_witness :
    cursorInv (applySessionOp (.stdoutData "x!".data) sampleSession ∅).1 :=
  cursor_invariant_preserved (.stdoutData "x!".data) sampleSession ∅ (by decide)

/-- C2 (amended): for every stdout or stderr data append, the text is
concatenated at the end and, when the result exceeds `MAX_BUFFER_SIZE`,
exactly the overflow amount is trimmed from the front (the trimmed
characters are the oldest ones) so the buffer length is at most the cap,
and the read cursor is decremented by the trimmed amount, clamped at
zero.  (The original claim extends this to the terminal status line
appended on process exit; the close handler appends without trimming —
see the counterexample.) -/
theorem stream_append_trims (emu : Session) (data : List Char)
    (h : 0 ≤ emu.lastReadPosition) :
    ∀ emu' full,
      (emu' = onStdoutData emu data ∧ full = emu.outputBuffer ++ data) ∨
      (emu' = onStderrData emu data ∧
        full = emu.outputBuffer ++ ("ERROR: ".data ++ data)) →
      emu'.outputBuffer.length ≤ MAX_BUFFER_SIZE ∧
      emu'.outputBuffer.length = min full.length MAX_BUFFER_SIZE ∧
      full.take (full.length - MAX_BUFFER_SIZE) ++ emu'.outputBuffer = full ∧
      emu'.lastReadPosition =
        max 0 (emu.lastReadPosition -
          ((full.length - MAX_BUFFER_SIZE : Nat) : Int)) := by
  rintro emu' full (⟨rfl, rfl⟩ | ⟨rfl, rfl⟩) <;>
    simp only [onStdoutData, onStderrData] <;>
    exact ⟨by rw [trimBuffer_length]; omega,
           trimBuffer_length _ _,
           trimBuffer_decomp _ _,
           trimBuffer_snd _ _ h⟩

/-- Witness for C2's theorem: the stdout append at a concrete session. -/
theorem stream_append_trims_witness :
    (onStdoutData sampleSession "!".data).outputBuffer.length ≤
      MAX_BUFFER_SIZE ∧
    (onStdoutData sampleSession "!".data).outputBuffer.length =
      min ("hello".data ++ "!".data).length MAX_BUFFER_SIZE ∧
    ("hello".data ++ "!".data).take
        (("hello".data ++ "!".data).length - MAX_BUFFER_SIZE) ++
      (onStdoutData sampleSession "!".data).outputBuffer =
      "hello".data ++ "!".data ∧
    (onStdoutData sampleSession "!".data).lastReadPosition =
      max 0 (sampleSession.lastReadPosition -
        ((("hello".data ++ "!".data).length - MAX_BUFFER_SIZE : Nat) : Int)) :=
  stream_append_trims sampleSession "!".data (by decide)
    (onStdoutData sampleSession "!".data) ("hello".data ++ "!".data)
    (Or.inl ⟨rfl, rfl⟩)

/-- Counterexample for C2 as stated: the terminal status line appended
by the close handler is not trimmed, so from a buffer already at the
cap the buffer length exceeds `MAX_BUFFER_SIZE` after the process-exit
write. -/
theorem close_append_exceeds_cap :
    MAX_BUFFER_SIZE <
      ((handleClose 0 sessionAtCap ∅).1.outputBuffer).length := by
  have hb : (handleClose 0 sessionAtCap ∅).1.outputBuffer =
      List.replicate MAX_BUFFER_SIZE 'a' ++ exitStatusLine 0 := rfl
  have hpos : 0 < (exitStatusLine 0).length := by decide
  rw [hb, List.length_append, List.length_replicate]
  omega

/-- C4 (amended): the destructive status read returns exactly the
substring of the output buffer from the current cursor to the end and
sets the cursor to the buffer length; two consecutive reads with no
intervening append return the empty string the second time; and a read
immediately after appending `t` to a fully-read buffer returns exactly
`t` provided `t.length` is at most `MAX_BUFFER_SIZE` (a longer `t` is
itself trimmed, so only its last `MAX_BUFFER_SIZE` characters are
returned — see the counterexample). -/
theorem read_new_spec :
    (∀ emu : Session,
      (readNew emu).2 = emu.outputBuffer.drop emu.lastReadPosition.toNat ∧
      (readNew emu).1.lastReadPosition = (emu.outputBuffer.length : Int) ∧
      (readNew emu).1.outputBuffer = emu.outputBuffer) ∧
    (∀ emu : Session, (readNew (readNew emu).1).2 = []) ∧
    (∀ (emu : Session) (t : List Char),
      emu.lastReadPosition = (emu.outputBuffer.length : Int) →
      t.length ≤ MAX_BUFFER_SIZE →
      (readNew (onStdoutData emu t)).2 = t) := by
  refine ⟨fun emu => ⟨rfl, rfl, rfl⟩, fun emu => ?_, fun emu t hfull hlen => ?_⟩
  · simp only [readNew, Int.toNat_natCast]
    exact List.drop_length _
  · simp only [readNew, onStdoutData]
    rw [trimBuffer_fst, trimBuffer_snd _ _ (by rw [hfull]; exact Int.natCast_nonneg _)]
    rw [hfull, List.length_append]
    set L := emu.outputBuffer.length with hL
    set e := L + t.length - MAX_BUFFER_SIZE with he
    have heL : e ≤ L := by omega
    have hmax : max 0 ((L : Int) - (e : Int)) = ((L - e : Nat) : Int) := by
      omega
    rw [hmax, Int.toNat_natCast]
    rw [List.drop_append_of_le_length heL]
    exact List.drop_left' (by rw [List.length_drop])

/-- Witness for C4's theorem: its third part at a concrete session. -/
theorem read_new_spec_witness :
    (readNew (onStdoutData sessionEmptyRead "hi".data)).2 = "hi".data :=
  read_new_spec.2.2 sessionEmptyRead "hi".data (by decide) (by decide)

/-- Counterexample for C4 as stated: appending a text one character
longer than the cap to a fully-read (empty) buffer and then reading does
not return the appended text (the oldest character was trimmed). -/
theorem read_after_long_append_not_exact :
    (readNew (onStdoutData sessionEmptyRead
        (List.replicate (MAX_BUFFER_SIZE + 1) 'a'))).2 ≠
      List.replicate (MAX_BUFFER_SIZE + 1) 'a' := by
  intro h
  rw [readNew_onStdout_output] at h
  have hbuf : sessionEmptyRead.outputBuffer = [] := rfl
  have hpos : sessionEmptyRead.lastReadPosition = 0 := rfl
  rw [hbuf, hpos] at h
  have hl := congrArg List.length h
  rw [List.length_drop, trimBuffer_length, trimBuffer_snd _ _ le_rfl] at hl
  rw [List.nil_append, List.length_replicate] at hl
  omega

/-- C5: after the child process's `close` event fires with code `c`, the
session's running flag is false, its output buffer ends with the
terminal status line recording `c`, and the session's display slot is
removed from the used set, so that once every lower slot is in use a
subsequent acquire returns exactly that slot again. -/
theorem process_close_releases_display (c : Int) (emu : Session)
    (used : Finset Nat) :
    (handleClose c emu used).1.running = false ∧
    (∃ p, (handleClose c emu used).1.outputBuffer = p ++ exitStatusLine c) ∧
    emu.vncDisplay ∉ (handleClose c emu used).2 ∧
    (emu.vncDisplay < 100 →
      (∀ k, k < emu.vncDisplay → k ∈ (handleClose c emu used).2) →
      getAvailableVncDisplay (handleClose c emu used).2 =
        .ok (emu.vncDisplay, insert emu.vncDisplay (handleClose c emu used).2)) := by
  refine ⟨rfl, ⟨emu.outputBuffer, rfl⟩, ?_, ?_⟩
  · exact Finset.not_mem_erase _ _
  · intro hlt hbelow
    exact getAvailableVncDisplay_finds (Finset.not_mem_erase _ _) hlt hbelow

/-- Witness for C5 at a concrete session whose display is slot 0: the
slot is freed and the very next acquire returns it. -/
theorem process_close_releases_display_witness :
    (handleClose 0 sampleSession {0}).1.running = false ∧
    (∃ p, (handleClose 0 sampleSession {0}).1.outputBuffer =
      p ++ exitStatusLine 0) ∧
    sampleSession.vncDisplay ∉ (handleClose 0 sampleSession {0}).2 ∧
    getAvailableVncDisplay (handleClose 0 sampleSession {0}).2 =
      .ok (sampleSession.vncDisplay,
        insert sampleSession.vncDisplay (handleClose 0 sampleSession {0}).2) :=
  ⟨(process_close_releases_display 0 sampleSession {0}).1,
   (process_close_releases_display 0 sampleSession {0}).2.1,
   (process_close_releases_display 0 sampleSession {0}).2.2.1,
   (process_close_releases_display 0 sampleSession {0}).2.2.2 (by decide)
     (fun k hk => absurd hk (Nat.not_lt_zero k))⟩

/-- C6: a WebSocket upgrade request for a session id that is not in the
registry is rejected with the not-found response, and one for a session
whose running flag is false is rejected with the service-unavailable
response; in both cases no local TCP connection to the session's display
port is opened. -/
theorem vnc_upgrade_rejects (reg : Registry) (emulatorId : String) :
    (List.lookup emulatorId reg = none →
      handleVncUpgrade reg emulatorId = .rejectNotFound ∧
      opensLocalConnection (handleVncUpgrade reg emulatorId) = false) ∧
    (∀ emu, List.lookup emulatorId reg = some emu → emu.running = false →
      handleVncUpgrade reg emulatorId = .rejectUnavailable ∧
      opensLocalConnection (handleVncUpgrade reg emulatorId) = false) := by
  constructor
  · intro hnone
    have h : handleVncUpgrade reg emulatorId = .rejectNotFound := by
      unfold handleVncUpgrade
      rw [hnone]
    exact ⟨h, by rw [h]; rfl⟩
  · intro emu hsome hstopped
    have h : handleVncUpgrade reg emulatorId = .rejectUnavailable := by
      unfold handleVncUpgrade
      rw [hsome]
      dsimp only
      rw [hstopped]
      simp
    exact ⟨h, by rw [h]; rfl⟩

/-- Witness for C6: the empty registry rejects with not-found, and a
registry holding only a stopped session rejects with
service-unavailable; neither opens a connection. -/
theorem vnc_upgrade_rejects_witness :
    (handleVncUpgrade [] "a" = .rejectNotFound ∧
      opensLocalConnection (handleVncUpgrade [] "a") = false) ∧
    (handleVncUpgrade [("a", sampleStoppedSession)] "a" = .rejectUnavailable ∧
      opensLocalConnection
        (handleVncUpgrade [("a", sampleStoppedSession)] "a") = false) :=
  ⟨(vnc_upgrade_rejects [] "a").1 rfl,
   (vnc_upgrade_rejects [("a", sampleStoppedSession)] "a").2
     sampleStoppedSession (by decide) (by decide)⟩

/-- C7 (amended): when slot allocation succeeded but the process-spawn
step throws, the session is still inserted into the registry (a get by
its id succeeds), its running flag is false and the error message is
recorded in its output buffer — but its display slot is NOT released:
it stays in the used set (it is only freed later by a stop request or a
process event). -/
theorem spawn_failure_records_session (env : SpawnEnv)
    (emulatorId : String) (now : Nat) (config : Config)
    (bc : BrowserConfig) (reg : Registry) (used : Finset Nat)
    (d : Nat) (used' : Finset Nat) (msg : String)
    (hacq : getAvailableVncDisplay used = .ok (d, used'))
    (hspawn : env.spawnResult = .error msg) :
    ∃ emu,
      List.lookup emulatorId
        (startQemuEmulator env emulatorId now config bc reg used).1 =
          some emu ∧
      emu.running = false ∧
      (∃ p, emu.outputBuffer = p ++ catchErrorLine msg.data) ∧
      emu.vncDisplay = d ∧
      d ∈ (startQemuEmulator env emulatorId now config bc reg used).2.1 := by
  unfold startQemuEmulator
  rw [hacq]
  dsimp only
  rw [hspawn]
  dsimp only
  refine ⟨_, lookup_mapSet_self _ _ _, rfl, ⟨_, rfl⟩, rfl, ?_⟩
  obtain ⟨_, _, _, h4⟩ := getAvailableVncDisplay_ok hacq
  rw [h4]
  exact Finset.mem_insert_self d used

/-- Witness for C7's theorem at a concrete failing creation. -/
theorem spawn_failure_records_session_witness :
    ∃ emu,
      List.lookup "a"
        (startQemuEmulator envSpawnFail "a" 0 sampleSession.config
          sampleSession.browserConfig [] ∅).1 = some emu ∧
      emu.running = false ∧
      (∃ p, emu.outputBuffer = p ++ catchErrorLine "spawn ENOENT".data) ∧
      emu.vncDisplay = 0 ∧
      0 ∈ (startQemuEmulator envSpawnFail "a" 0 sampleSession.config
        sampleSession.browserConfig [] ∅).2.1 :=
  spawn_failure_records_session envSpawnFail "a" 0 sampleSession.config
    sampleSession.browserConfig [] ∅ 0 {0} "spawn ENOENT" (by decide) rfl

/-- Counterexample for C7 as stated: in the concrete failing creation,
the allocated slot 0 is still in the used set after the catch block ran
(the catch block of `startQemuEmulator`, part_000 lines 413-417, never
calls `releaseVncDisplay`). -/
theorem spawn_failure_slot_not_released :
    0 ∈ (startQemuEmulator envSpawnFail "a" 0 sampleSession.config
      sampleSession.browserConfig [] ∅).2.1 := by
  decide

/-- C8: a stop request on a registered session id returns success
regardless of the process/running state, leaves the session with
`running = false`, does not delete the session immediately but schedules
its removal after the 5000 ms grace period, and once that removal fires
a status query for the id returns the not-found error.  The hypothesis
`running → process present` is an invariant of the code: every path
that leaves `running = true` has assigned the process handle. -/
theorem stop_route_best_effort (reg : Registry) (used : Finset Nat)
    (id : String) (emu : Session) (now : Nat)
    (hlook : List.lookup id reg = some emu)
    (hinv : emu.running = true → emu.process.isSome = true) :
    (stopEmulatorRoute reg used id).2.2.1 =
      .ok { success := true, message := "Emulator stopped" } ∧
    (stopEmulatorRoute reg used id).2.2.2 = some (id, 5000) ∧
    (∃ emu', List.lookup id (stopEmulatorRoute reg used id).1 = some emu' ∧
      emu'.running = false) ∧
    (emulatorStatusRoute now
        (applyScheduledRemoval (stopEmulatorRoute reg used id).1 id) id).2 =
      .error "Emulator not found" := by
  unfold stopEmulatorRoute
  rw [hlook]
  dsimp only
  refine ⟨rfl, rfl, ⟨_, lookup_mapSet_self _ _ _, ?_⟩, ?_⟩
  · cases hb : (emu.process.isSome && emu.running)
    · simp only [hb, Bool.false_eq_true, if_false]
      cases hr : emu.running
      · rfl
      · rw [hinv hr, hr] at hb
        exact absurd hb (by simp)
    · simp only [hb, if_true]
  · unfold emulatorStatusRoute applyScheduledRemoval
    rw [lookup_mapDelete_self]

/-- Witness for C8 at a concrete registry. -/
theorem stop_route_best_effort_witness :
    (stopEmulatorRoute [("a", sampleSession)] {0} "a").2.2.1 =
      .ok { success := true, message := "Emulator stopped" } ∧
    (stopEmulatorRoute [("a", sampleSession)] {0} "a").2.2.2 =
      some ("a", 5000) ∧
    (∃ emu', List.lookup "a"
        (stopEmulatorRoute [("a", sampleSession)] {0} "a").1 = some emu' ∧
      emu'.running = false) ∧
    (emulatorStatusRoute 0
        (applyScheduledRemoval
          (stopEmulatorRoute [("a", sampleSession)] {0} "a").1 "a") "a").2 =
      .error "Emulator not found" :=
  stop_route_best_effort [("a", sampleSession)] {0} "a" sampleSession 0
    rfl (fun _ => rfl)

/-- C9: for every created session, the remote-display port and the
websocket port are derived from the assigned display slot `d` as exactly
`5900 + d` and `6080 + d`; the ports in the creation result and in the
stored session agree, and the relay for a running session dials exactly
`5900 + d`. -/
theorem ports_follow_display (env : SpawnEnv) (emulatorId : String)
    (now : Nat) (config : Config) (bc : BrowserConfig) (reg : Registry)
    (used : Finset Nat) (res : CreateResult)
    (hok : (startQemuEmulator env emulatorId now config bc reg used).2.2 =
      .ok res) :
    ∃ emu,
      List.lookup emulatorId
        (startQemuEmulator env emulatorId now config bc reg used).1 =
          some emu ∧
      emu.vncPort = 5900 + emu.vncDisplay ∧
      emu.websocketPort = 6080 + emu.vncDisplay ∧
      res.vncPort = 5900 + emu.vncDisplay ∧
      res.websocketPort = 6080 + emu.vncDisplay ∧
      (emu.running = true →
        handleVncUpgrade
            (startQemuEmulator env emulatorId now config bc reg used).1
            emulatorId =
          .accept (5900 + emu.vncDisplay)) := by
  unfold startQemuEmulator at hok ⊢
  cases hacq : getAvailableVncDisplay used with
  | error e =>
    rw [hacq] at hok
    dsimp only at hok
    exact Except.noConfusion hok
  | ok p =>
    obtain ⟨d, used'⟩ := p
    rw [hacq] at hok
    dsimp only at hok ⊢
    cases hspawn : env.spawnResult with
    | ok u =>
      rw [hspawn] at hok
      dsimp only at hok ⊢
      injection hok with hres
      subst hres
      refine ⟨_, lookup_mapSet_self _ _ _, rfl, rfl, rfl, rfl, fun _ => ?_⟩
      unfold handleVncUpgrade
      rw [lookup_mapSet_self]
      rfl
    | error msg =>
      rw [hspawn] at hok
      dsimp only at hok ⊢
      injection hok with hres
      subst hres
      refine ⟨_, lookup_mapSet_self _ _ _, rfl, rfl, rfl, rfl, fun hr => ?_⟩
      exact Bool.noConfusion hr

/-- Witness for C9 at a concrete successful creation. -/
theorem ports_follow_display_witness :
    ∃ emu,
      List.lookup "a"
        (startQemuEmulator envSpawnOk "a" 0 sampleSession.config
          sampleSession.browserConfig [] ∅).1 = some emu ∧
      emu.vncPort = 5900 + emu.vncDisplay ∧
      emu.websocketPort = 6080 + emu.vncDisplay ∧
      ({ emulatorId := "a",
         output := generateStartupMessage sampleSession.config
           sampleSession.browserConfig none (5900 + 0) (6080 + 0),
         vncPort := 5900 + 0, websocketPort := 6080 + 0,
         hasImage := false } : CreateResult).vncPort = 5900 + emu.vncDisplay ∧
      ({ emulatorId := "a",
         output := generateStartupMessage sampleSession.config
           sampleSession.browserConfig none (5900 + 0) (6080 + 0),
         vncPort := 5900 + 0, websocketPort := 6080 + 0,
         hasImage := false } : CreateResult).websocketPort =
        6080 + emu.vncDisplay ∧
      (emu.running = true →
        handleVncUpgrade
            (startQemuEmulator envSpawnOk "a" 0 sampleSession.config
              sampleSession.browserConfig [] ∅).1 "a" =
          .accept (5900 + emu.vncDisplay)) :=
  ports_follow_display envSpawnOk "a" 0 sampleSession.config
    sampleSession.browserConfig [] ∅ _ rfl

/-- C10: a status query on an existing session changes only that
session's read cursor: the updated registry equals the old one with
that single session's `lastReadPosition` advanced to its buffer length,
every other field of the session is unchanged, and every other
session's binding is untouched. -/
theorem status_query_frame (now : Nat) (reg : Registry) (id : String)
    (emu : Session) (hlook : List.lookup id reg = some emu) :
    (emulatorStatusRoute now reg id).1 =
      mapSet reg id
        { emu with lastReadPosition := (emu.outputBuffer.length : Int) } ∧
    (∃ emu', List.lookup id (emulatorStatusRoute now reg id).1 = some emu' ∧
      emu'.outputBuffer = emu.outputBuffer ∧
      emu'.running = emu.running ∧
      emu'.config = emu.config ∧
      emu'.startTime = emu.startTime ∧
      emu'.vncDisplay = emu.vncDisplay ∧
      emu'.vncPort = emu.vncPort ∧
      emu'.websocketPort = emu.websocketPort ∧
      emu'.process = emu.process ∧
      emu'.imagePath = emu.imagePath ∧
      emu'.browserConfig = emu.browserConfig ∧
      emu'.id = emu.id ∧
      emu'.lastReadPosition = (emu.outputBuffer.length : Int)) ∧
    (∀ j, j ≠ id →
      List.lookup j (emulatorStatusRoute now reg id).1 = List.lookup j reg) := by
  unfold emulatorStatusRoute
  rw [hlook]
  dsimp only [readNew]
  exact ⟨rfl,
    ⟨_, lookup_mapSet_self _ _ _, rfl, rfl, rfl, rfl, rfl, rfl, rfl, rfl,
      rfl, rfl, rfl, rfl⟩,
    fun j hj => lookup_mapSet_other _ _ _ _ hj⟩

/-- Witness for C10 at a concrete one-session registry. -/
theorem status_query_frame_witness :
    (emulatorStatusRoute 0 [("a", sampleSession)] "a").1 =
      mapSet [("a", sampleSession)] "a"
        { sampleSession with
            lastReadPosition := (sampleSession.outputBuffer.length : Int) } ∧
    (∃ emu', List.lookup "a"
        (emulatorStatusRoute 0 [("a", sampleSession)] "a").1 = some emu' ∧
      emu'.outputBuffer = sampleSession.outputBuffer ∧
      emu'.running = sampleSession.running ∧
      emu'.config = sampleSession.config ∧
      emu'.startTime = sampleSession.startTime ∧
      emu'.vncDisplay = sampleSession.vncDisplay ∧
      emu'.vncPort = sampleSession.vncPort ∧
      emu'.websocketPort = sampleSession.websocketPort ∧
      emu'.process = sampleSession.process ∧
      emu'.imagePath = sampleSession.imagePath ∧
      emu'.browserConfig = sampleSession.browserConfig ∧
      emu'.id = sampleSession.id ∧
      emu'.lastReadPosition = (sampleSession.outputBuffer.length : Int)) ∧
    (∀ j, j ≠ "a" →
      List.lookup j (emulatorStatusRoute 0 [("a", sampleSession)] "a").1 =
        List.lookup j [("a", sampleSession)]) :=
  status_query_frame 0 [("a", sampleSession)] "a" sampleSession rfl

end BrowserIG
